import Mathlib

/-!
Verification of the title/spec-string parsing and normalization pipeline of
the reptile-commerce repository, covering the Newegg processor
(newegg/newegg_process_data.py) and the Sylvane processor
(sylvane/sylvane_process_fixed.py).

The Python code is shallowly embedded: strings are Lists of Char, Python
floats are modelled as exact rationals (every numeric literal the claims
touch is decimal, where rational and IEEE double computations agree),
Python exceptions (ValueError from float, NameError from an unbound name)
are modelled with Except String, and the regular expressions used by the
processors are executed by a small backtracking engine (matchRE below)
that mirrors the leftmost, greedy, backtracking search semantics of the
Python re module for the constructs these patterns use: character classes,
literals (optionally case-insensitive), concatenation, ordered alternation,
greedy bounded repetition, option, word boundary, end anchor, capture
groups 1 and 2, and negative lookahead.
-/

deriving instance DecidableEq for Except

namespace ReptileCommerce

/-! Character helpers mirroring the Python re module classes. -/

/-- Python re whitespace class (ASCII part): space, tab, newline, return,
vertical tab, form feed. -/
def isPySpace (c : Char) : Bool :=
  c = ' ' || c = '\t' || c = '\n' || c = '\r' || c = '\x0b' || c = '\x0c'

/-- Python re word character (ASCII part): letters, digits, underscore. -/
def isWordChar (c : Char) : Bool :=
  c.isAlphanum || c = '_'

/-- Character of the token class used by the price regex: digit or comma. -/
def isDigitOrComma (c : Char) : Bool :=
  c.isDigit || c = ','

/-- Lower-case a character list (models str.lower on the ASCII inputs the
pipeline handles). -/
def lowerL (l : List Char) : List Char :=
  l.map Char.toLower

/-- Python str.strip: drop the whitespace characters from both ends. -/
def pyStrip (l : List Char) : List Char :=
  ((l.dropWhile isPySpace).reverse.dropWhile isPySpace).reverse

/-- Substring containment: needle occurs contiguously inside hay
(models the Python expression needle in hay). -/
def containsSub (needle : List Char) : List Char → Bool
  | [] => needle.isEmpty
  | c :: t => needle.isPrefixOf (c :: t) || containsSub needle t

/-- Python needle in hay test on strings. -/
def strContains (hay needle : String) : Bool :=
  containsSub needle.data hay.data

/-- Python str.startswith. -/
def strStarts (s pre : String) : Bool :=
  pre.data.isPrefixOf s.data

/-- Split a character list on runs of whitespace, dropping empty pieces
(models str.split with no argument). -/
def pySplitAux : List Char → List Char → List (List Char)
  | [], acc => if acc.isEmpty then [] else [acc.reverse]
  | c :: t, acc =>
    if isPySpace c then
      if acc.isEmpty then pySplitAux t [] else acc.reverse :: pySplitAux t []
    else pySplitAux t (c :: acc)

/-- Python str.split() on a string, as strings. -/
def pySplitWs (s : String) : List String :=
  (pySplitAux s.data []).map (fun l => (⟨l⟩ : String))

/-- One pass of Python str.replace(needle, "") deleting every
non-overlapping occurrence of needle left to right, with fuel. -/
def pyDeleteFuel : Nat → List Char → List Char → List Char
  | 0, hay, _ => hay
  | fuel + 1, hay, needle =>
    match hay with
    | [] => []
    | c :: t =>
      if !needle.isEmpty && needle.isPrefixOf (c :: t) then
        pyDeleteFuel fuel ((c :: t).drop needle.length) needle
      else
        c :: pyDeleteFuel fuel t needle

/-- Python str.replace(needle, "") on character lists. -/
def pyDelete (hay needle : List Char) : List Char :=
  pyDeleteFuel (hay.length + 1) hay needle

/-- Value of a string of decimal digits (models Python int on the digit
strings that the regular expressions produce). -/
def natOfDigits (l : List Char) : Nat :=
  l.foldl (fun a c => a * 10 + (c.toNat - 48)) 0

/-- Value of a numeric token shaped like digits, an optional dot, and more
digits, as an exact rational. Total companion of pyFloat below. -/
def pyFloatVal (l : List Char) : ℚ :=
  let ip := l.takeWhile Char.isDigit
  let rest := l.drop ip.length
  let fp := match rest with
    | '.' :: t => t.takeWhile Char.isDigit
    | _ => []
  mkRat (natOfDigits (ip ++ fp)) (10 ^ fp.length)

/-- Python float() applied to a token that the price regex produced after
commas were stripped: raises ValueError when the token holds no digit
(for example the empty string or a lone dot). -/
def pyFloat (l : List Char) : Except String ℚ :=
  if l.any Char.isDigit then .ok (pyFloatVal l) else .error "ValueError"

/-! A small backtracking regular-expression engine with the semantics of
Python re.search for the constructs used by the two processors. -/

/-- Capture slots for groups 1 and 2 (no pattern in the sources has more
than two groups, and none nests groups). -/
abbrev Caps := Option (List Char) × Option (List Char)

/-- Result threaded through the continuation-passing matcher: the
remaining input after the whole match together with the captures. -/
abbrev MRes := Option (List Char × Caps)

/-- Abstract syntax of the regular expressions the processors use. -/
inductive RE where
  | eps : RE
  | cls (p : Char → Bool) : RE
  | lit (s : List Char) (ci : Bool) : RE
  | cat (a b : RE) : RE
  | alt (a b : RE) : RE
  | rep (p : Char → Bool) (lo : Nat) (hi : Option Nat) : RE
  | opt (a : RE) : RE
  | wb : RE
  | eos : RE
  | grp (i : Nat) (a : RE) : RE
  | nla (a : RE) : RE

/-- Store a capture in slot 1 or slot 2. -/
def setCap (i : Nat) (g : List Char) (caps : Caps) : Caps :=
  if i = 1 then (some g, caps.2) else (caps.1, some g)

/-- Compare a literal pattern with a slice of the text, optionally
case-insensitively. -/
def charsMatch (ci : Bool) (pat txt : List Char) : Bool :=
  if ci then pat.map Char.toLower == txt.map Char.toLower else pat == txt

/-- Previous-character tracker: the last character of the consumed slice,
or the incoming previous character when nothing was consumed. -/
def headPrev (consumed : List Char) (prev : Option Char) : Option Char :=
  match consumed.getLast? with
  | some c => some c
  | none => prev

/-- Try f at n, n-1, ..., 0 and keep the first success: the greedy
backtracking order of a bounded repetition. -/
def tryFrom (f : Nat → MRes) : Nat → MRes
  | 0 => f 0
  | n + 1 =>
    match f (n + 1) with
    | some r => some r
    | none => tryFrom f n

/-- Continuation-passing matcher at a fixed start position. The previous
character is tracked for word boundaries; alternation and repetition
backtrack through the continuation exactly as the Python engine does. -/
def matchRE : RE → Option Char → List Char → (Option Char → List Char → Caps → MRes) → Caps → MRes
  | .eps, prev, rest, k, caps => k prev rest caps
  | .cls p, _, rest, k, caps =>
    match rest with
    | [] => none
    | c :: cs => if p c then k (some c) cs caps else none
  | .lit s ci, prev, rest, k, caps =>
    let t := rest.take s.length
    if t.length = s.length && charsMatch ci s t then
      k (headPrev t prev) (rest.drop s.length) caps
    else none
  | .cat a b, prev, rest, k, caps =>
    matchRE a prev rest (fun p' r' c' => matchRE b p' r' k c') caps
  | .alt a b, prev, rest, k, caps =>
    match matchRE a prev rest k caps with
    | some r => some r
    | none => matchRE b prev rest k caps
  | .rep p lo hi, prev, rest, k, caps =>
    let run := rest.takeWhile p
    let maxN :=
      match hi with
      | some h => min run.length h
      | none => run.length
    if maxN < lo then none
    else
      tryFrom (fun i =>
        let n := lo + i
        k (headPrev (rest.take n) prev) (rest.drop n) caps) (maxN - lo)
  | .opt a, prev, rest, k, caps =>
    match matchRE a prev rest k caps with
    | some r => some r
    | none => k prev rest caps
  | .wb, prev, rest, k, caps =>
    let pw := match prev with | some c => isWordChar c | none => false
    let nw := match rest with | c :: _ => isWordChar c | [] => false
    if pw != nw then k prev rest caps else none
  | .eos, prev, rest, k, caps =>
    match rest with
    | [] => k prev [] caps
    | _ => none
  | .grp i a, prev, rest, k, caps =>
    matchRE a prev rest
      (fun p' r' _ => k p' r' (setCap i (rest.take (rest.length - r'.length)) caps)) caps
  | .nla a, prev, rest, k, caps =>
    match matchRE a prev rest (fun _ r' c' => some (r', c')) caps with
    | some _ => none
    | none => k prev rest caps

/-- Leftmost search: try a full match at each successive start position,
exactly as re.search does. Returns the matched text, the captures,
and the remaining input after the match. -/
def reSearchAux (r : RE) (prev : Option Char) (rest : List Char) :
    Option (List Char × Caps × List Char) :=
  match matchRE r prev rest (fun _ rst caps => some (rst, caps)) (none, none) with
  | some (rst, caps) => some (rest.take (rest.length - rst.length), caps, rst)
  | none =>
    match rest with
    | [] => none
    | c :: cs => reSearchAux r (some c) cs

/-- Group 1 of the leftmost match, on character lists. -/
def searchG1L (r : RE) (s : List Char) : Option (List Char) :=
  match reSearchAux r none s with
  | some (_, (some g, _), _) => some g
  | _ => none

/-- Group 1 of the leftmost match, on strings. -/
def searchG1 (r : RE) (s : String) : Option String :=
  (searchG1L r s.data).map (fun l => (⟨l⟩ : String))

/-- Groups 1 and 2 of the leftmost match when one exists. -/
def searchG12 (r : RE) (s : String) : Option (Option String × Option String) :=
  (reSearchAux r none s.data).map
    (fun x => (x.2.1.1.map (fun l => (⟨l⟩ : String)), x.2.1.2.map (fun l => (⟨l⟩ : String))))

/-- Whole text of the leftmost match (group 0). -/
def searchG0 (r : RE) (s : String) : Option String :=
  (reSearchAux r none s.data).map (fun x => (⟨x.1⟩ : String))

/-- All non-overlapping matches from left to right, with fuel, exactly as
re.findall produces them for group-free patterns. -/
def reFindAllFuel : Nat → RE → Option Char → List Char → List (List Char)
  | 0, _, _, _ => []
  | fuel + 1, r, prev, rest =>
    match reSearchAux r prev rest with
    | none => []
    | some (m, _, rst) =>
      match m.getLast? with
      | none => []
      | some c => m :: reFindAllFuel fuel r (some c) rst

/-- Python re.findall for the group-free patterns of the processors. -/
def reFindAll (r : RE) (s : List Char) : List (List Char) :=
  reFindAllFuel (s.length + 1) r none s

/-- Python re.sub(pattern, "", text): delete every non-overlapping
leftmost match, scanning the original text, with fuel. -/
def reSubDelFuel : Nat → RE → Option Char → List Char → List Char
  | 0, _, _, rest => rest
  | fuel + 1, r, prev, rest =>
    match matchRE r prev rest (fun _ rst caps => some (rst, caps)) (none, none) with
    | some (rst, _) =>
      if rst.length < rest.length then
        reSubDelFuel fuel r (headPrev (rest.take (rest.length - rst.length)) prev) rst
      else
        match rest with
        | [] => []
        | c :: cs => c :: reSubDelFuel fuel r (some c) cs
    | none =>
      match rest with
      | [] => []
      | c :: cs => c :: reSubDelFuel fuel r (some c) cs

/-- Python re.sub(pattern, "", text) on a character list. -/
def reSubDel (r : RE) (s : List Char) : List Char :=
  reSubDelFuel (s.length + 1) r none s

/-- Concatenation of a list of regular expressions. -/
def reCatL (l : List RE) : RE := l.foldr RE.cat RE.eps

/-- The pattern piece backslash-s-star. -/
def reSpace0 : RE := .rep isPySpace 0 none

/-- The pattern piece backslash-s-plus. -/
def reSpace1 : RE := .rep isPySpace 1 none

/-- Python str.strip on strings. -/
def pyStripStr (s : String) : String := ⟨pyStrip s.data⟩

/-! Newegg processor: newegg/newegg_process_data.py, class NeweggDataProcessor. -/

/-- Values stored in the category-specific specs dictionaries: Python None,
str or int. -/
inductive PyVal where
  | vnone : PyVal
  | vstr (s : String) : PyVal
  | vint (n : Int) : PyVal
deriving DecidableEq

/-- Wrap an optional string the way the Python dict stores it. -/
def optStr : Option String → PyVal
  | some s => .vstr s
  | none => .vnone

/-- Wrap an optional integer the way the Python dict stores it. -/
def optInt : Option Int → PyVal
  | some n => .vint n
  | none => .vnone

/-- self.category_keywords: the ordered category-to-keyword-list mapping
from the constructor, in declared (insertion) order. -/
def categoryKeywords : List (String × List String) :=
  [("Laptop", ["Laptop", "Notebook", "2-in-1", "Chromebook", "Gaming Laptop", "TouchScreen Laptop"]),
   ("Gaming PC", ["Gaming PC", "Desktop PC", "Pre-Built", "Gaming Desktop"]),
   ("CPU", ["Processor", "CPU"]),
   ("Motherboard", ["Motherboard", "LGA", "Socket AM5", "ATX", "mATX", "ITX"]),
   ("Memory", ["RAM", "DDR5", "DDR4", "Memory", "GB (2 x"]),
   ("SSD", ["SSD", "Solid State Drive", "NVMe", "M.2", "PCIe Gen"]),
   ("Graphics Card", ["Graphics Card", "GPU", "RTX", "Radeon", "GeForce"]),
   ("Storage", ["Hard Drive", "HDD"]),
   ("Power Supply", ["Power Supply", "PSU", "W Power Supply"]),
   ("Case", ["Case", "Chassis"]),
   ("Cooler", ["Cooler", "Heatsink", "Liquid Cooler", "AIO"]),
   ("Camera", ["Camera", "Webcam", "Surveillance", "Security Camera", "PTZ", "NVR Kit", "Dome Camera"]),
   ("Smart Home", ["Smart Plug", "Smart Light", "Hub", "Sensor", "Doorbell", "Thermostat"]),
   ("Networking", ["Router", "Switch", "Access Point", "WiFi", "Ethernet"]),
   ("Other", [])]

/-- Inner loops of detect_category: scan categories in declared order and
the keywords of each category in order, returning the first category with
a lower-cased keyword occurring in the lower-cased title. -/
def detectCategoryAux : List (String × List String) → List Char → Option String
  | [], _ => none
  | (cat, kws) :: rest, titleLower =>
    if kws.any (fun kw => containsSub (lowerL kw.data) titleLower) then some cat
    else detectCategoryAux rest titleLower

/-- detect_category: first-match keyword classification with fallback
category Other. -/
def detectCategory (title : String) : String :=
  (detectCategoryAux categoryKeywords (lowerL title.data)).getD "Other"

/-- CPU brand pattern: word-bounded AMD or Intel, ignoring case. -/
def reCpuBrand : RE :=
  reCatL [.wb, .grp 1 (.alt (.lit "AMD".data true) (.lit "Intel".data true)), .wb]

/-- First CPU series pattern: Ryzen with a 3, 5, 7 or 9, Ryzen
Threadripper, or EPYC, word-bounded, ignoring case. -/
def reCpuSeries1 : RE :=
  reCatL [.wb, .grp 1 (.alt
    (reCatL [.lit "Ryzen".data true, reSpace0,
      .cls (fun c => c = '3' || c = '5' || c = '7' || c = '9')])
    (.alt (reCatL [.lit "Ryzen".data true, reSpace1, .lit "Threadripper".data true])
      (.lit "EPYC".data true))), .wb]

/-- Second CPU series pattern: Core i, j or U with digit, or Core Ultra. -/
def reCpuSeries2 : RE :=
  reCatL [.wb, .grp 1 (.alt
    (reCatL [.lit "Core".data true, reSpace0,
      .cls (fun c => c.toLower = 'i' || c.toLower = 'j' || c.toLower = 'u'),
      .cls (fun c => c = '3' || c = '5' || c = '7' || c = '9')])
    (reCatL [.lit "Core".data true, reSpace1, .lit "Ultra".data true])), .wb]

/-- Third CPU series pattern: Pentium or Celeron. -/
def reCpuSeries3 : RE :=
  reCatL [.wb, .grp 1 (.alt (.lit "Pentium".data true) (.lit "Celeron".data true)), .wb]

/-- CPU model pattern: word-bounded 4 or 5 digits, up to 4 letters, then an
optional L, X or K (searched case-sensitively). -/
def reCpuModel : RE :=
  reCatL [.wb, .grp 1 (reCatL [.rep Char.isDigit 4 (some 5), .rep Char.isAlpha 0 (some 4),
    .opt (.cls (fun c => c = 'L' || c = 'X' || c = 'K'))]), .wb]

/-- CPU cores pattern: digits, optional spaces or dashes, then Core or
Cores, ignoring case. -/
def reCpuCores : RE :=
  reCatL [.grp 1 (.rep Char.isDigit 1 none), .rep (fun c => isPySpace c || c = '-') 0 none,
    .lit "Co".data true, .alt (.lit "re".data true) (.lit "res".data true)]

/-- CPU speed pattern: a decimal number then GHz, ignoring case. -/
def reCpuSpeed : RE :=
  reCatL [.grp 1 (reCatL [.rep Char.isDigit 1 none, .opt (.cls (fun c => c = '.')),
    .rep Char.isDigit 0 none]), reSpace0, .lit "GHz".data true]

/-- First socket pattern: the word Socket then letters and digits
(class made case-insensitive by the IGNORECASE flag). -/
def reSocket1 : RE :=
  reCatL [.lit "Socket".data true, reSpace1,
    .grp 1 (.rep (fun c => c.isAlpha || c.isDigit) 1 none)]

/-- Second socket pattern: LGA then 4 or 5 digits. -/
def reSocket2 : RE :=
  reCatL [.lit "LGA".data true, reSpace0, .grp 1 (.rep Char.isDigit 4 (some 5))]

/-- Third socket pattern: word-bounded AM4 or AM5. -/
def reSocket3 : RE :=
  reCatL [.wb, .grp 1 (reCatL [.lit "AM".data true, .cls (fun c => c = '4' || c = '5')]), .wb]

/-- CPU power pattern: 2 or 3 digits, optional spaces, W, then whitespace,
comma, end of string, dot or closing parenthesis, ignoring case. -/
def reCpuPower : RE :=
  reCatL [.grp 1 (.rep Char.isDigit 2 (some 3)), reSpace0, .lit "W".data true,
    .alt (.cls isPySpace) (.alt (.cls (fun c => c = ','))
      (.alt .eos (.alt (.cls (fun c => c = '.')) (.cls (fun c => c = ')')))))]

/-- The CPU series field: the three series patterns tried in order, first
match committed, stripped. -/
def cpuSeries (title : String) : Option String :=
  (((searchG1 reCpuSeries1 title).orElse
    (fun _ => (searchG1 reCpuSeries2 title).orElse
      (fun _ => searchG1 reCpuSeries3 title)))).map pyStripStr

/-- The CPU socket field: three patterns in order; a match not starting
with LGA or AM is prefixed with the word Socket. -/
def cpuSocket (title : String) : Option String :=
  match (searchG1 reSocket1 title).orElse
      (fun _ => (searchG1 reSocket2 title).orElse (fun _ => searchG1 reSocket3 title)) with
  | some g =>
    let v := pyStripStr g
    some (if strStarts v "LGA" || strStarts v "AM" then v else "Socket " ++ v)
  | none => none

/-- The CPU power field: searched wattage kept only inside [35, 350],
formatted back with a W suffix, otherwise left at None. -/
def cpuPower (title : String) : Option String :=
  match searchG1 reCpuPower title with
  | some g =>
    let v := natOfDigits g.data
    if 35 ≤ v && v ≤ 350 then some (toString v ++ "W") else none
  | none => none

/-- parse_cpu_specs: the CPU specs dictionary in insertion order. -/
def parseCpuSpecs (title : String) : List (String × PyVal) :=
  [("brand", optStr (searchG1 reCpuBrand title)),
   ("series", optStr (cpuSeries title)),
   ("model", optStr (searchG1 reCpuModel title)),
   ("cores", match searchG1 reCpuCores title with
     | some g => .vint (natOfDigits g.data)
     | none => .vnone),
   ("speed", optStr ((searchG1 reCpuSpeed title).map (fun g => g ++ " GHz"))),
   ("socket", optStr (cpuSocket title)),
   ("power", optStr (cpuPower title))]

/-- Motherboard chipset pattern. -/
def reMbChipset : RE :=
  .grp 1 (.alt
    (reCatL [.cls (fun c => c = 'A' || c = 'B' || c = 'C' || c = 'X' || c = 'Y' || c = 'Z'),
      .rep Char.isDigit 3 (some 4)])
    (reCatL [.cls (fun c => c = 'B' || c = 'Z'), .rep Char.isDigit 3 none]))

/-- Motherboard socket pattern, used through group 0. -/
def reMbSocket : RE :=
  .alt (reCatL [.lit "Socket".data true, reSpace1,
      .grp 1 (.rep (fun c => c.isAlpha || c.isDigit) 1 none)])
    (.alt (reCatL [.lit "LGA".data true, reSpace0, .grp 2 (.rep Char.isDigit 4 (some 5))])
      (reCatL [.lit "AM".data true, .cls (fun c => c = '4' || c = '5')]))

/-- parse_motherboard_specs. -/
def parseMotherboardSpecs (title : String) : List (String × PyVal) :=
  [("brand", optStr (["ASUS", "GIGABYTE", "MSI", "ASRock", "MSI"].find?
      (fun b => containsSub (lowerL b.data) (lowerL title.data)))),
   ("chipset", optStr (searchG1 reMbChipset title)),
   ("socket", optStr (searchG0 reMbSocket title)),
   ("form_factor", optStr (
     if strContains title "ATX" then some "ATX"
     else if strContains title "mATX" || strContains title "Micro ATX" then some "mATX"
     else if strContains title "ITX" then some "ITX"
     else none)),
   ("memory_type", optStr (
     if strContains title "DDR5" then some "DDR5"
     else if strContains title "DDR4" then some "DDR4"
     else none))]

/-- Memory capacity pattern: digits then GB, case-sensitive. -/
def reMemCap : RE := reCatL [.grp 1 (.rep Char.isDigit 1 none), reSpace0, .lit "GB".data false]

/-- Memory speed pattern: exactly 4 digits then MHz or PC5. -/
def reMemSpeed : RE :=
  reCatL [.grp 1 (.rep Char.isDigit 4 (some 4)), reSpace0,
    .alt (.lit "MHz".data false) (.lit "PC5".data false)]

/-- parse_memory_specs. -/
def parseMemorySpecs (title : String) : List (String × PyVal) :=
  [("brand", optStr (["CORSAIR", "G.SKILL", "Kingston", "Crucial", "Patriot"].find?
      (fun b => containsSub (lowerL b.data) (lowerL title.data)))),
   ("capacity_gb", optInt ((searchG1 reMemCap title).map (fun g => (natOfDigits g.data : Int)))),
   ("type", optStr (
     if strContains title "DDR5" then some "DDR5"
     else if strContains title "DDR4" then some "DDR4"
     else none)),
   ("speed_mhz", optInt ((searchG1 reMemSpeed title).map (fun g => (natOfDigits g.data : Int))))]

/-- SSD terabyte capacity pattern: a decimal number then TB,
case-sensitive; tried before the gigabyte pattern. -/
def reSsdTB : RE :=
  reCatL [.grp 1 (reCatL [.rep Char.isDigit 1 none, .opt (.cls (fun c => c = '.')),
    .rep Char.isDigit 0 none]), reSpace0, .lit "TB".data false]

/-- SSD gigabyte capacity pattern: digits then GB not followed by optional
spaces and a word character (the negative lookahead of the source). -/
def reSsdGB : RE :=
  reCatL [.grp 1 (.rep Char.isDigit 1 none), reSpace0, .lit "GB".data false,
    .nla (reCatL [reSpace0, .cls isWordChar])]

/-- SSD read speed pattern: digits, an optional comma, digits, then MB/s. -/
def reSsdRead : RE :=
  reCatL [.grp 1 (reCatL [.rep Char.isDigit 1 none, .opt (.cls (fun c => c = ',')),
    .rep Char.isDigit 0 none]), reSpace0, .lit "MB/s".data false]

/-- The SSD capacity in gigabytes: the terabyte pattern is tried first and
its value is multiplied by 1024 and truncated to an integer; only when no
terabyte match exists is the gigabyte pattern tried. The float product of
the source is computed exactly over the rationals, where the truncation of
value times 1024 agrees with the IEEE computation on the decimal inputs
the pattern produces away from integer boundaries. -/
def ssdCapacity (title : String) : Option Int :=
  match searchG1 reSsdTB title with
  | some g =>
    let q := pyFloatVal g.data
    some (Rat.floor (mkRat (q.num * 1024) q.den))
  | none =>
    match searchG1 reSsdGB title with
    | some g => some ((natOfDigits g.data : Int))
    | none => none

/-- parse_ssd_specs. -/
def parseSsdSpecs (title : String) : List (String × PyVal) :=
  [("brand", optStr (["SAMSUNG", "Western Digital", "WD", "Crucial", "Patriot", "Kingston",
      "Sabrent", "Solidigm"].find? (fun b => containsSub (lowerL b.data) (lowerL title.data)))),
   ("capacity_gb", optInt (ssdCapacity title)),
   ("interface", optStr (
     if strContains title "PCIe Gen4" || strContains title "PCIe 4.0" then some "PCIe Gen4"
     else if strContains title "PCIe Gen3" || strContains title "PCIe 3.0" then some "PCIe Gen3"
     else none)),
   ("read_speed", optStr (searchG1 reSsdRead title)),
   ("form_factor", optStr (
     if strContains title "M.2" then some "M.2"
     else if strContains title "2.5\"" then some "2.5 inch"
     else none))]

/-- First laptop and gaming CPU pattern: Intel Core, a class letter or
digit, dashes or spaces, digits, up to 4 letters. -/
def reLapCpu1 : RE :=
  .grp 1 (reCatL [.lit "Intel Core ".data true,
    .cls (fun c => c.toLower = 'i' || c.toLower = 'u' || c = '3' || c = '5' || c = '7' || c = '9'),
    .rep (fun c => c = '-' || isPySpace c) 0 none, .rep Char.isDigit 1 none,
    .rep Char.isAlpha 0 (some 4)])

/-- Second laptop and gaming CPU pattern: Intel Core Ultra. -/
def reLapCpu2 : RE :=
  .grp 1 (reCatL [.lit "Intel Core Ultra ".data true,
    .cls (fun c => c = '3' || c = '5' || c = '7' || c = '9'), reSpace0,
    .rep Char.isDigit 1 none, .rep Char.isAlpha 0 (some 4)])

/-- Third laptop and gaming CPU pattern: AMD Ryzen with a 4-digit model. -/
def reLapCpu3 : RE :=
  .grp 1 (reCatL [.lit "AMD Ryzen ".data true,
    .cls (fun c => c = '3' || c = '5' || c = '7' || c = '9'), reSpace0,
    .rep Char.isDigit 4 (some 4), .rep Char.isAlpha 0 (some 4)])

/-- Fourth laptop CPU pattern: Intel Core, digits, then the stem Proces. -/
def reLapCpu4 : RE :=
  .grp 1 (reCatL [.lit "Intel Core ".data true, .rep Char.isDigit 1 none,
    .lit " Proces".data true])

/-- RAM pattern shared by the laptop and gaming parsers: digits, GB, then
DDR4 or DDR5, ignoring case. -/
def reRamDdr : RE :=
  reCatL [.grp 1 (.rep Char.isDigit 1 none), reSpace0, .lit "GB".data true, reSpace0,
    .lit "DDR".data true, .cls (fun c => c = '4' || c = '5')]

/-- Laptop storage pattern: digits, GB, then SSD, NVMe or M.2. -/
def reLapStorage : RE :=
  reCatL [.grp 1 (.rep Char.isDigit 1 none), reSpace0, .lit "GB".data true, reSpace0,
    .grp 2 (.alt (.lit "SSD".data true) (.alt (.lit "NVMe".data true) (.lit "M.2".data true)))]

/-- Laptop terabyte storage fallback pattern: digits, TB, SSD. -/
def reLapStorageTB : RE :=
  reCatL [.grp 1 (.rep Char.isDigit 1 none), reSpace0, .lit "TB".data true, reSpace0,
    .lit "SSD".data true]

/-- Laptop screen pattern: a decimal number followed by a double quote or
whitespace, case-sensitive. -/
def reLapScreen : RE :=
  reCatL [.grp 1 (reCatL [.rep Char.isDigit 1 none, .opt (.cls (fun c => c = '.')),
    .rep Char.isDigit 0 none]), .cls (fun c => c = '"' || isPySpace c)]

/-- Laptop GPU patterns. -/
def reLapGpu1 : RE :=
  .grp 1 (reCatL [.lit "RTX".data true, reSpace0, .rep Char.isDigit 1 none,
    .rep Char.isAlpha 0 (some 4), reSpace0, .lit "Laptop".data true])

/-- Second laptop GPU pattern. -/
def reLapGpu2 : RE :=
  .grp 1 (reCatL [.lit "GeForce".data true, reSpace0, .lit "RTX".data true, reSpace0,
    .rep Char.isDigit 1 none, .rep Char.isAlpha 0 (some 4), reSpace0, .lit "Laptop".data true])

/-- Radeon GPU pattern shared by the laptop and gaming parsers. -/
def reGpuRadeon : RE :=
  .grp 1 (reCatL [.lit "Radeon".data true, reSpace0, .lit "RX".data true, reSpace0,
    .rep Char.isDigit 1 none, .rep Char.isAlpha 0 (some 4)])

/-- parse_laptop_specs. -/
def parseLaptopSpecs (title : String) : List (String × PyVal) :=
  [("brand", optStr (["ASUS", "MSI", "Acer", "Lenovo", "Dell", "HP", "Razer", "GIGABYTE",
      "XIDAX"].find? (fun b => containsSub (lowerL b.data) (lowerL title.data)))),
   ("cpu", optStr ((((searchG1 reLapCpu1 title).orElse
     (fun _ => (searchG1 reLapCpu2 title).orElse
       (fun _ => (searchG1 reLapCpu3 title).orElse
         (fun _ => searchG1 reLapCpu4 title))))).map pyStripStr)),
   ("ram", optStr ((searchG1 reRamDdr title).map (fun g => g ++ " GB"))),
   ("storage", optStr (
     match searchG12 reLapStorage title with
     | some (g1, g2) => some (g1.getD "None" ++ " GB " ++ g2.getD "None")
     | none =>
       match searchG1 reLapStorageTB title with
       | some g => some (g ++ " TB SSD")
       | none => none)),
   ("screen_size", optStr (
     match searchG1 reLapScreen title with
     | some g =>
       if mkRat 10 1 ≤ pyFloatVal g.data && pyFloatVal g.data ≤ mkRat 20 1 then
         some (g ++ " inch")
       else none
     | none => none)),
   ("gpu", optStr ((((searchG1 reLapGpu1 title).orElse
     (fun _ => (searchG1 reLapGpu2 title).orElse
       (fun _ => searchG1 reGpuRadeon title)))).map pyStripStr))]

/-- Gaming GPU patterns: plain RTX. -/
def reGamGpu1 : RE :=
  .grp 1 (reCatL [.lit "RTX".data true, reSpace0, .rep Char.isDigit 1 none,
    .rep Char.isAlpha 0 (some 4)])

/-- Gaming GPU pattern: GeForce RTX. -/
def reGamGpu2 : RE :=
  .grp 1 (reCatL [.lit "GeForce".data true, reSpace0, .lit "RTX".data true, reSpace0,
    .rep Char.isDigit 1 none, .rep Char.isAlpha 0 (some 4)])

/-- Gaming GPU pattern: GeForce GTX. -/
def reGamGpu3 : RE :=
  .grp 1 (reCatL [.lit "GeForce".data true, reSpace0, .lit "GTX".data true, reSpace0,
    .rep Char.isDigit 1 none, .rep Char.isAlpha 0 (some 4)])

/-- Gaming storage pattern: digits, GB or TB, SSD, with an unanchored NVMe
alternative whose match leaves both groups unset. -/
def reGamStorage : RE :=
  .alt (reCatL [.grp 1 (.rep Char.isDigit 1 none), reSpace0,
      .grp 2 (.alt (.lit "GB".data true) (.lit "TB".data true)), reSpace0,
      .lit "SSD".data true])
    (.lit "NVMe".data true)

/-- parse_gaming_pc_specs. -/
def parseGamingPcSpecs (title : String) : List (String × PyVal) :=
  [("brand", optStr (["ABS", "iBUYPOWER", "CYBERPOWERPC", "Skytech", "CLX", "Xidax"].find?
      (fun b => containsSub (lowerL b.data) (lowerL title.data)))),
   ("cpu", optStr ((((searchG1 reLapCpu1 title).orElse
     (fun _ => (searchG1 reLapCpu2 title).orElse
       (fun _ => searchG1 reLapCpu3 title)))).map pyStripStr)),
   ("gpu", optStr ((((searchG1 reGamGpu1 title).orElse
     (fun _ => (searchG1 reGamGpu2 title).orElse
       (fun _ => (searchG1 reGamGpu3 title).orElse
         (fun _ => searchG1 reGpuRadeon title))))).map pyStripStr)),
   ("ram", optStr ((searchG1 reRamDdr title).map (fun g => g ++ " GB"))),
   ("storage", optStr (
     match searchG12 reGamStorage title with
     | some (g1, g2) => some (g1.getD "None" ++ " " ++ g2.getD "None" ++ " SSD")
     | none => none))]

/-- The numeric token pattern of extract_price: one or more digits or
commas, an optional dot, then digits. -/
def reNum : RE :=
  reCatL [.rep isDigitOrComma 1 none, .opt (.cls (fun c => c = '.')), .rep Char.isDigit 0 none]

/-- The candidate tokens that re.findall produces for a price text. -/
def priceCandidates (s : List Char) : List (List Char) := reFindAll reNum s

/-- extract_price of the Newegg processor: falsy or literal-zero input
gives None; otherwise float() of the first token with commas removed,
which raises ValueError when the token holds no digit; a non-positive
value gives None. -/
def neweggExtractPrice (priceStr : String) : Except String (Option ℚ) :=
  if priceStr = "" || priceStr = "0" then .ok none
  else
    match priceCandidates priceStr.data with
    | [] => .ok none
    | n :: _ =>
      match pyFloat (n.filter (fun c => c ≠ ',')) with
      | .error e => .error e
      | .ok p => .ok (if 0 < p then some p else none)

/-- Brand candidates of generate_amazon_link. -/
def neweggAmazonBrands : List String :=
  ["AMD", "Intel", "ASUS", "GIGABYTE", "MSI", "ASRock", "CORSAIR", "SAMSUNG", "eufy",
   "Arlo", "Ubiquiti", "Reolink", "Kasa", "Philips", "Eve"]

/-- The CPU model keyword pattern of generate_amazon_link, used through
group 0 and without word boundaries. -/
def reAmzCpuModel : RE :=
  reCatL [.rep Char.isDigit 4 (some 5), .rep Char.isAlpha 0 (some 4)]

/-- UTF-8 bytes of a character. -/
def utf8Bytes (c : Char) : List Nat :=
  let n := c.toNat
  if n < 128 then [n]
  else if n < 2048 then [192 + n / 64, 128 + n % 64]
  else if n < 65536 then [224 + n / 4096, 128 + (n / 64) % 64, 128 + n % 64]
  else [240 + n / 262144, 128 + (n / 4096) % 64, 128 + (n / 64) % 64, 128 + n % 64]

/-- Upper-case hexadecimal digit. -/
def hexUpper (n : Nat) : Char :=
  if n < 10 then Char.ofNat (48 + n) else Char.ofNat (55 + n)

/-- One byte of urllib.parse.quote_plus output: unreserved bytes pass
through, a space becomes a plus, everything else is percent-encoded. -/
def quotePlusByte (b : Nat) : List Char :=
  if (48 ≤ b && b ≤ 57) || (65 ≤ b && b ≤ 90) || (97 ≤ b && b ≤ 122)
      || b = 95 || b = 46 || b = 45 || b = 126 then [Char.ofNat b]
  else if b = 32 then ['+']
  else ['%', hexUpper (b / 16), hexUpper (b % 16)]

/-- urllib.parse.quote_plus. -/
def quotePlus (s : String) : String :=
  ⟨(s.data.flatMap utf8Bytes).flatMap quotePlusByte⟩

/-- Join strings with a separator (str.join). -/
def joinWith (sep : String) : List String → String
  | [] => ""
  | [s] => s
  | s :: rest => s ++ sep ++ joinWith sep rest

/-- generate_amazon_link of the Newegg processor. -/
def generateAmazonLink (title category : String) : String :=
  let st0 : List String :=
    match neweggAmazonBrands.find? (fun b => containsSub (lowerL b.data) (lowerL title.data)) with
    | some b => [b]
    | none => []
  let st1 : List String :=
    if category = "CPU" then
      match searchG0 reAmzCpuModel title with
      | some m => st0 ++ [m]
      | none => st0
    else st0 ++ (pySplitWs title).take 5
  let terms := if st1.isEmpty then (pySplitWs title).take 3 else st1
  "https://www.amazon.com/s?k=" ++ quotePlus (joinWith " " (terms.take 4)) ++ "&tag=YOUR_TAG-20"

/-- A raw Newegg record as read from the scraped JSON, with the dict.get
defaults of normalize_record. -/
structure NeweggRaw where
  title : String := ""
  price : String := ""
  imgUrl : String := ""
  productLink : String := ""
  itemFeatures : List String := []
deriving DecidableEq

/-- The normalized Newegg record built by normalize_record, with the dict
keys in insertion order; processed_at carries the clock reading. -/
structure NeweggNorm where
  originalData : NeweggRaw
  title : String
  category : String
  price : ℚ
  imageUrl : String
  productLink : String
  itemFeatures : List String
  processedAt : String
  brand : Option String
  specs : List (String × PyVal)
  amazonLink : String
deriving DecidableEq

/-- The brand that normalize_record lifts out of a specs dictionary with
specs.get, which yields None both for a missing key and a stored None. -/
def specsBrand (specs : List (String × PyVal)) : Option String :=
  match specs.lookup "brand" with
  | some (.vstr b) => some b
  | _ => none

/-- The per-category dispatch of normalize_record: the specs dictionary
and the lifted brand; categories without a parser give an empty dict and
a None brand. -/
def categorySpecs (category title : String) : Option String × List (String × PyVal) :=
  if category = "CPU" then
    let s := parseCpuSpecs title; (specsBrand s, s)
  else if category = "Motherboard" then
    let s := parseMotherboardSpecs title; (specsBrand s, s)
  else if category = "Memory" then
    let s := parseMemorySpecs title; (specsBrand s, s)
  else if category = "SSD" then
    let s := parseSsdSpecs title; (specsBrand s, s)
  else if category = "Laptop" then
    let s := parseLaptopSpecs title; (specsBrand s, s)
  else if category = "Gaming PC" then
    let s := parseGamingPcSpecs title; (specsBrand s, s)
  else (none, [])

/-- normalize_record of the Newegg processor: extract the price and
discard the record (None) when no positive price is recoverable, else
classify, parse category specs, build the Amazon link and assemble the
normalized dict. The clock reading datetime.now().isoformat() is the
explicit argument now. A ValueError escaping extract_price propagates. -/
def neweggNormalizeRecord (record : NeweggRaw) (now : String) :
    Except String (Option NeweggNorm) :=
  match neweggExtractPrice record.price with
  | .error e => .error e
  | .ok none => .ok none
  | .ok (some price) =>
    let title := record.title
    let category := detectCategory title
    let bs := categorySpecs category title
    .ok (some
      { originalData := record
        title := title
        category := category
        price := price
        imageUrl := record.imgUrl
        productLink := record.productLink
        itemFeatures := record.itemFeatures
        processedAt := now
        brand := bs.1
        specs := bs.2
        amazonLink := generateAmazonLink title category })

/-- Loop body of process_all: append accepted records in input order and
count discarded ones; an exception escaping normalize_record propagates
and aborts the batch. -/
def neweggProcessAllGo (now : String) :
    List NeweggRaw → List NeweggNorm → Nat → Except String (List NeweggNorm × Nat)
  | [], acc, d => .ok (acc.reverse, d)
  | r :: rs, acc, d =>
    match neweggNormalizeRecord r now with
    | .error e => .error e
    | .ok (some n) => neweggProcessAllGo now rs (n :: acc) d
    | .ok none => neweggProcessAllGo now rs acc (d + 1)

/-- process_all of the Newegg processor: the accepted records in input
order together with the discarded count (initially 0). -/
def neweggProcessAll (records : List NeweggRaw) (now : String) :
    Except String (List NeweggNorm × Nat) :=
  neweggProcessAllGo now records [] 0

/-! Sylvane processor: sylvane/sylvane_process_fixed.py, class
SylvaneDataProcessor. -/

/-- The deletion pattern of extract_coverage_area, with alternatives in
source order; applied to the lower-cased value, case-sensitively. -/
def reCoverageDel : RE :=
  .alt (reCatL [.lit "sq".data false, .opt (.cls (fun c => c = '.')), reSpace0,
      .lit "ft".data false, .opt (.cls (fun c => c = '.'))])
  (.alt (reCatL [.lit "square".data false, reSpace1, .lit "feet".data false])
  (.alt (reCatL [.lit "up".data false, reSpace1, .lit "to".data false])
  (.alt (.lit "approximately".data false)
  (.alt (reCatL [.lit "cover".data false, .opt (.cls (fun c => c = 's')), reSpace1,
      .lit "up".data false, reSpace1, .lit "to".data false])
  (.alt (reCatL [.lit "whole".data false, reSpace1, .lit "house".data false])
  (.lit "manufacturer-suggested".data false))))))

/-- The token pattern of extract_coverage_area: one or more digits or
commas. -/
def reIntTok : RE := .rep isDigitOrComma 1 none

/-- The in-range numbers of extract_coverage_area: tokens of the
lower-cased, phrase-deleted, stripped text, with commas removed, non-empty
ones converted to int and filtered to the interval [50, 3000]. -/
def coverageValidNumbers (value : String) : List Nat :=
  let text := pyStrip (reSubDel reCoverageDel (lowerL value.data))
  let numbers := reFindAll reIntTok text
  let cleaned :=
    ((numbers.map (fun n => pyStrip (n.filter (fun c => c ≠ ',')))).filter
      (fun l => !l.isEmpty)).map natOfDigits
  cleaned.filter (fun n => 50 ≤ n && n ≤ 3000)

/-- extract_coverage_area: None for a falsy or N/A value, otherwise the
maximum of the valid numbers when any exist (the final positivity test of
the source kept verbatim), else None. -/
def extractCoverageArea (value : Option String) : Option Nat :=
  match value with
  | none => none
  | some v =>
    if v = "" || v = "N/A" then none
    else
      match (coverageValidNumbers v).max? with
      | some m => if 0 < m then some m else none
      | none => none

/-- extract_cadr_smoke: a static method whose body reads the unbound name
self, so any truthy value other than N/A raises NameError at run time. -/
def extractCadrSmoke (value : Option String) : Except String (Option Nat) :=
  match value with
  | none => .ok none
  | some v =>
    if v = "" || v = "N/A" then .ok none
    else .error "NameError: name 'self' is not defined"

/-- extract_cadr_pollen: same shape and same defect as extract_cadr_smoke. -/
def extractCadrPollen (value : Option String) : Except String (Option Nat) :=
  match value with
  | none => .ok none
  | some v =>
    if v = "" || v = "N/A" then .ok none
    else .error "NameError: name 'self' is not defined"

/-- extract_cadr_dust: same shape and same defect as extract_cadr_smoke. -/
def extractCadrDust (value : Option String) : Except String (Option Nat) :=
  match value with
  | none => .ok none
  | some v =>
    if v = "" || v = "N/A" then .ok none
    else .error "NameError: name 'self' is not defined"

/-- The digit-run pattern of _extract_single_number. -/
def reDigits : RE := .rep Char.isDigit 1 none

/-- _extract_single_number: the maximum digit run of the text (reachable
only if the self defect of the CADR extractors were repaired). -/
def extractSingleNumber (value : Option String) : Option Nat :=
  match value with
  | none => none
  | some v =>
    if v = "" then none
    else ((reFindAll reDigits v.data).map natOfDigits).max?

/-- The deletion pattern of extract_noise_level, alternatives in source
order (note db precedes dba, so dba is never removed as a whole). -/
def reNoiseDel : RE :=
  .alt (.lit "db".data false)
  (.alt (reCatL [.lit "decibel".data false, .opt (.cls (fun c => c = 's'))])
  (.alt (.lit "dba".data false)
  (.alt (reCatL [.lit "decibel".data false, reSpace1, .lit "level".data false])
  (.alt (reCatL [.lit "noise".data false, reSpace1, .lit "level".data false])
  (.alt (.lit "maximum".data false)
  (.lit "minimum".data false))))))

/-- The decimal token pattern of extract_noise_level and of the laptop
screen and SSD terabyte groups: digits, an optional dot, digits. -/
def reNumTok : RE :=
  reCatL [.rep Char.isDigit 1 none, .opt (.cls (fun c => c = '.')), .rep Char.isDigit 0 none]

/-- extract_noise_level: minimum and maximum of the decimal numbers left
after deleting the unit words; a single number serves as both. Python
converts an integral float back to int, which only changes the runtime
type, not the value modelled here. -/
def extractNoiseLevel (value : Option String) : Option ℚ × Option ℚ :=
  match value with
  | none => (none, none)
  | some v =>
    if v = "" || v = "N/A" then (none, none)
    else
      let text := pyStrip (reSubDel reNoiseDel (lowerL v.data))
      match (reFindAll reNumTok text).map pyFloatVal with
      | [] => (none, none)
      | [x] => (some x, some x)
      | x :: xs => (some (xs.foldl min x), some (xs.foldl max x))

/-- extract_filter_type: pass the value through unless falsy or N/A. -/
def extractFilterType (value : Option String) : Option String :=
  match value with
  | none => none
  | some v => if v = "" || v = "N/A" then none else some v

/-- The word-bounded digit pattern of extract_fan_speeds. -/
def reFanNum : RE := reCatL [.wb, .grp 1 (.rep Char.isDigit 1 none), .wb]

/-- The spelled-out numbers of extract_fan_speeds in dict insertion
order. -/
def fanWordNumbers : List (String × Nat) :=
  [("one", 1), ("two", 2), ("three", 3), ("four", 4), ("five", 5),
   ("six", 6), ("seven", 7), ("eight", 8), ("nine", 9), ("ten", 10)]

/-- extract_fan_speeds: first a word-bounded digit run of the lower-cased,
stripped text, then the first spelled-out number occurring in it. -/
def extractFanSpeeds (value : Option String) : Option Nat :=
  match value with
  | none => none
  | some v =>
    if v = "" || v = "N/A" then none
    else
      let text := pyStrip (lowerL v.data)
      match searchG1L reFanNum text with
      | some g => some (natOfDigits g)
      | none =>
        match fanWordNumbers.find? (fun p => containsSub p.1.data text) with
        | some p => some p.2
        | none => none

/-- The cleaned price text of the Sylvane extract_price: newlines and
returns become spaces, the phrases Sale price and Regular price are
deleted, then the ends are stripped. -/
def sylvanePriceClean (s : String) : List Char :=
  pyStrip (pyDelete (pyDelete
    (s.data.map (fun c => if c = '\n' || c = '\r' then ' ' else c))
    "Sale price".data) "Regular price".data)

/-- Loop of the Sylvane extract_price: the first strictly positive token
value wins; float() of a digit-free token raises ValueError. -/
def sylvaneFirstPositive : List (List Char) → Except String (Option ℚ)
  | [] => .ok none
  | n :: rest =>
    match pyFloat (n.filter (fun c => c ≠ ',')) with
    | .error e => .error e
    | .ok p => if 0 < p then .ok (some p) else sylvaneFirstPositive rest

/-- extract_price of the Sylvane processor. -/
def sylvaneExtractPrice (priceStr : String) : Except String (Option ℚ) :=
  if priceStr = "" || priceStr = "0" || priceStr = "N/A" then .ok none
  else sylvaneFirstPositive (priceCandidates (sylvanePriceClean priceStr))

/-- The stop words of the Sylvane generate_amazon_link, deleted in list
order from the lower-cased product name. -/
def sylvaneStopWords : List String :=
  ["air purifier", "air purifiers", "hepa", "model", "series"]

/-- generate_amazon_link of the Sylvane processor. -/
def sylvaneGenerateAmazonLink (productName : String) : String :=
  let t := sylvaneStopWords.foldl (fun acc w => pyDelete acc w.data) (lowerL productName.data)
  let words := (pySplitAux t []).take 5
  "https://www.amazon.com/s?k="
    ++ quotePlus (joinWith " " (words.map (fun l => (⟨l⟩ : String))))
    ++ "&tag=YOUR_TAG-20"

/-- A raw Sylvane record: product_name, url, price and image_url are read
with empty-string defaults, the spec fields with dict.get and no default,
so a missing field is None. -/
structure SylvaneRaw where
  productName : String := ""
  url : String := ""
  price : String := ""
  imageUrl : String := ""
  coverageArea : Option String := none
  cadrSmoke : Option String := none
  cadrPollen : Option String := none
  cadrDust : Option String := none
  noiseLevel : Option String := none
  filterType : Option String := none
  fanSpeeds : Option String := none
deriving DecidableEq

/-- The normalized Sylvane record, dict keys in insertion order. -/
structure SylvaneNorm where
  productName : String
  url : String
  price : ℚ
  imageUrl : String
  coverageArea : Option Nat
  cadrSmoke : Option Nat
  cadrPollen : Option Nat
  cadrDust : Option Nat
  noiseLevel : Option ℚ × Option ℚ
  filterType : Option String
  fanSpeeds : Option Nat
  amazonLink : String
  processedAt : String
deriving DecidableEq

/-- normalize_record of the Sylvane processor: a record without a positive
price is discarded before any field extraction; afterwards the CADR
extractors run and their NameError propagates for truthy CADR inputs. -/
def sylvaneNormalizeRecord (record : SylvaneRaw) (now : String) :
    Except String (Option SylvaneNorm) :=
  match sylvaneExtractPrice record.price with
  | .error e => .error e
  | .ok none => .ok none
  | .ok (some price) =>
    match extractCadrSmoke record.cadrSmoke with
    | .error e => .error e
    | .ok smoke =>
      match extractCadrPollen record.cadrPollen with
      | .error e => .error e
      | .ok pollen =>
        match extractCadrDust record.cadrDust with
        | .error e => .error e
        | .ok dust =>
          .ok (some
            { productName := record.productName
              url := record.url
              price := price
              imageUrl := record.imageUrl
              coverageArea := extractCoverageArea record.coverageArea
              cadrSmoke := smoke
              cadrPollen := pollen
              cadrDust := dust
              noiseLevel := extractNoiseLevel record.noiseLevel
              filterType := extractFilterType record.filterType
              fanSpeeds := extractFanSpeeds record.fanSpeeds
              amazonLink := sylvaneGenerateAmazonLink record.productName
              processedAt := now })

/-! Specification-side definitions, written from the wording of the
specification and of the claims, to be compared with the code-side
translations above. -/

/-- One category matches when one of its lower-cased keywords occurs in
the lower-cased title. -/
def hitsKeyword (kws : List String) (title : String) : Bool :=
  kws.any (fun kw => containsSub (lowerL kw.data) (lowerL title.data))

/-- Spec-side classifier, following the specification text: for each
category in list order return the first whose keyword list matches, and
fall back to Other when the list is exhausted. -/
def detectCategorySpec (title : String) : String :=
  ((categoryKeywords.find? (fun p => hitsKeyword p.2 title)).map (fun p => p.1)).getD "Other"

/-- Claim-side reading of the integers found in a raw text: the maximal
digit-or-comma runs of the text itself (not of any preprocessed form),
commas removed, non-empty ones as numbers. -/
def claimIntsInText (s : String) : List Nat :=
  (((reFindAll reIntTok s.data).map (fun n => n.filter (fun c => c ≠ ','))).filter
    (fun l => !l.isEmpty)).map natOfDigits

/-- A candidate token of the price regex that holds at least one digit
(float() succeeds exactly on these). -/
def candHasDigit (n : List Char) : Bool := n.any Char.isDigit

/-- Spec-side price semantics of the claim: take the first candidate and
keep it only when strictly positive. -/
def firstCandidateVal : List (List Char) → Option ℚ
  | [] => none
  | n :: _ =>
    let p := pyFloatVal (n.filter (fun c => c ≠ ','))
    if 0 < p then some p else none

/-- Spec-side price semantics of the Sylvane loop: the first strictly
positive candidate. -/
def firstPositiveVal : List (List Char) → Option ℚ
  | [] => none
  | n :: rest =>
    let p := pyFloatVal (n.filter (fun c => c ≠ ','))
    if 0 < p then some p else firstPositiveVal rest

/-- The accepted record a normalization outcome contributes to the batch
output, if any. -/
def okSome : Except String (Option NeweggNorm) → Option NeweggNorm
  | .ok (some n) => some n
  | _ => none

/-- Whether a normalization outcome is a silent discard. -/
def isOkNone : Except String (Option NeweggNorm) → Bool
  | .ok none => true
  | _ => false

/-- A normalization outcome with the timestamp field blanked, for stating
determinism up to the clock reading. -/
def eraseTime (x : Except String (Option NeweggNorm)) : Except String (Option NeweggNorm) :=
  x.map (Option.map (fun n => { n with processedAt := "" }))

/-! Helper lemmas. -/

theorem nat_max?_eq_some_iff {l : List Nat} {m : Nat} :
    l.max? = some m ↔ m ∈ l ∧ ∀ x ∈ l, x ≤ m :=
  List.max?_eq_some_iff (fun a => Nat.le_refl a) (fun a b => max_choice a b)
    (fun _ _ _ => Nat.max_le)

theorem pyStrip_subset (l : List Char) : pyStrip l ⊆ l := by
  intro x hx
  unfold pyStrip at hx
  rw [List.mem_reverse] at hx
  have h1 := List.dropWhile_subset (l := (l.dropWhile isPySpace).reverse) isPySpace hx
  rw [List.mem_reverse] at h1
  exact List.dropWhile_subset isPySpace h1

theorem pyDeleteFuel_subset : ∀ (fuel : Nat) (hay needle : List Char),
    pyDeleteFuel fuel hay needle ⊆ hay := by
  intro fuel
  induction fuel with
  | zero => intro hay needle x hx; exact hx
  | succ n ih =>
    intro hay needle
    match hay with
    | [] => intro x hx; exact absurd hx (by simp [pyDeleteFuel])
    | c :: t =>
      simp only [pyDeleteFuel]
      split
      · intro x hx
        exact List.drop_subset _ _ (ih _ _ hx)
      · intro x hx
        rcases List.mem_cons.mp hx with h | h
        · exact List.mem_cons.mpr (Or.inl h)
        · exact List.mem_cons.mpr (Or.inr (ih t needle h))

theorem pyDelete_subset (hay needle : List Char) : pyDelete hay needle ⊆ hay :=
  pyDeleteFuel_subset _ hay needle

theorem anyDigit_filter {n : List Char} (h : n.any Char.isDigit = true) :
    (n.filter (fun c => c ≠ ',')).any Char.isDigit = true := by
  rw [List.any_eq_true] at h ⊢
  obtain ⟨c, hc, hd⟩ := h
  refine ⟨c, ?_, hd⟩
  rw [List.mem_filter]
  refine ⟨hc, ?_⟩
  have : c ≠ ',' := by
    intro hEq
    subst hEq
    exact absurd hd (by decide)
  simpa using this

theorem pyFloat_ok {n : List Char} (h : n.any Char.isDigit = true) :
    pyFloat n = .ok (pyFloatVal n) := by
  simp [pyFloat, h]

theorem matchRE_reNum_none (prev : Option Char) (k : Option Char → List Char → Caps → MRes)
    (caps : Caps) {rest : List Char} (h : rest.takeWhile isDigitOrComma = []) :
    matchRE reNum prev rest k caps = none := by
  simp [reNum, reCatL, matchRE, h]

theorem reSearchAux_reNum_none : ∀ (s : List Char), (∀ c ∈ s, isDigitOrComma c = false) →
    ∀ prev, reSearchAux reNum prev s = none := by
  intro s
  induction s with
  | nil =>
    intro _ prev
    rw [reSearchAux, matchRE_reNum_none prev _ _ (by rfl)]
  | cons c cs ih =>
    intro h prev
    have hc : isDigitOrComma c = false := h c (List.mem_cons_self c cs)
    rw [reSearchAux, matchRE_reNum_none prev _ _ (by simp [List.takeWhile, hc])]
    exact ih (fun x hx => h x (List.mem_cons_of_mem c hx)) (some c)

theorem reFindAll_reNum_nil {s : List Char} (h : ∀ c ∈ s, isDigitOrComma c = false) :
    reFindAll reNum s = [] := by
  unfold reFindAll
  rw [reFindAllFuel, reSearchAux_reNum_none s h none]

theorem neweggExtractPrice_pos {s : String} {p : ℚ}
    (h : neweggExtractPrice s = .ok (some p)) : 0 < p := by
  unfold neweggExtractPrice at h
  split at h
  · exact absurd h (by simp)
  · split at h
    · exact absurd h (by simp)
    · split at h
      · exact absurd h (by simp)
      · split at h
        · rename_i hpos
          cases h
          exact hpos
        · exact absurd h (by simp)

theorem sylvaneFirstPositive_pos : ∀ {l : List (List Char)} {p : ℚ},
    sylvaneFirstPositive l = .ok (some p) → 0 < p := by
  intro l
  induction l with
  | nil => intro p h; exact absurd h (by simp [sylvaneFirstPositive])
  | cons n rest ih =>
    intro p h
    unfold sylvaneFirstPositive at h
    split at h
    · exact absurd h (by simp)
    · split at h
      · rename_i hpos
        cases h
        exact hpos
      · exact ih h

theorem sylvaneExtractPrice_pos {s : String} {p : ℚ}
    (h : sylvaneExtractPrice s = .ok (some p)) : 0 < p := by
  unfold sylvaneExtractPrice at h
  split at h
  · exact absurd h (by simp)
  · exact sylvaneFirstPositive_pos h

theorem sylvaneFirstPositive_eq : ∀ (l : List (List Char)), l.all candHasDigit = true →
    sylvaneFirstPositive l = .ok (firstPositiveVal l) := by
  intro l
  induction l with
  | nil => intro _; rfl
  | cons n rest ih =>
    intro h
    rw [List.all_cons, Bool.and_eq_true] at h
    rw [sylvaneFirstPositive, firstPositiveVal, pyFloat_ok (anyDigit_filter h.1)]
    split
    · rename_i heq
      cases heq
    · rename_i p heq
      cases heq
      split
      · rfl
      · exact ih h.2

theorem okSome_some (n : NeweggNorm) : okSome (.ok (some n)) = some n := rfl

theorem okSome_none : okSome (.ok none) = none := rfl

theorem isOkNone_some (n : NeweggNorm) : isOkNone (.ok (some n)) = false := rfl

theorem isOkNone_none : isOkNone (.ok none) = true := rfl

theorem processAllGo_spec (now : String) :
    ∀ (rs : List NeweggRaw) (acc : List NeweggNorm) (d : Nat),
    (∀ r ∈ rs, ∃ v, neweggNormalizeRecord r now = .ok v) →
    neweggProcessAllGo now rs acc d =
      .ok (acc.reverse ++ rs.filterMap (fun r => okSome (neweggNormalizeRecord r now)),
        d + rs.countP (fun r => isOkNone (neweggNormalizeRecord r now))) := by
  intro rs
  induction rs with
  | nil =>
    intro acc d _
    simp [neweggProcessAllGo]
  | cons r rest ih =>
    intro acc d h
    obtain ⟨v, hv⟩ := h r (List.mem_cons_self r rest)
    have hrest : ∀ x ∈ rest, ∃ w, neweggNormalizeRecord x now = .ok w :=
      fun x hx => h x (List.mem_cons_of_mem r hx)
    cases v with
    | some n =>
      have step : neweggProcessAllGo now (r :: rest) acc d =
          neweggProcessAllGo now rest (n :: acc) d := by
        rw [neweggProcessAllGo, hv]
      rw [step, ih (n :: acc) d hrest]
      simp only [List.filterMap_cons, List.countP_cons, hv, okSome_some, isOkNone_some,
        List.reverse_cons]
      simp [List.append_assoc]
    | none =>
      have step : neweggProcessAllGo now (r :: rest) acc d =
          neweggProcessAllGo now rest acc (d + 1) := by
        rw [neweggProcessAllGo, hv]
      rw [step, ih acc (d + 1) hrest]
      simp only [List.filterMap_cons, List.countP_cons, hv, okSome_none, isOkNone_none]
      simp [Nat.add_comm, Nat.add_assoc, Nat.add_left_comm]

theorem accepted_plus_discarded (now : String) : ∀ (rs : List NeweggRaw),
    (∀ r ∈ rs, ∃ v, neweggNormalizeRecord r now = .ok v) →
    (rs.filterMap (fun r => okSome (neweggNormalizeRecord r now))).length
      + rs.countP (fun r => isOkNone (neweggNormalizeRecord r now)) = rs.length := by
  intro rs
  induction rs with
  | nil => intro _; rfl
  | cons r rest ih =>
    intro h
    obtain ⟨v, hv⟩ := h r (List.mem_cons_self r rest)
    have hrest := ih (fun x hx => h x (List.mem_cons_of_mem r hx))
    cases v with
    | some n =>
      simp [List.filterMap_cons, List.countP_cons, hv, okSome_some, isOkNone_some]
      omega
    | none =>
      simp [List.filterMap_cons, List.countP_cons, hv, okSome_none, isOkNone_none]
      omega

theorem coverageValidNumbers_range {v : String} {n : Nat}
    (h : n ∈ coverageValidNumbers v) : 50 ≤ n ∧ n ≤ 3000 := by
  unfold coverageValidNumbers at h
  have hp := (List.mem_filter.mp h).2
  simp only [Bool.and_eq_true, decide_eq_true_eq] at hp
  exact hp

theorem nodigit_chars {s : List Char} (h : s.all (fun c => !c.isDigit && !(c = ',')) = true) :
    ∀ c ∈ s, isDigitOrComma c = false := by
  intro c hc
  have hcp := List.all_eq_true.mp h c hc
  simp only [Bool.and_eq_true, Bool.not_eq_true', decide_eq_false_iff_not] at hcp
  simp [isDigitOrComma, hcp.1, hcp.2]

theorem neweggExtractPrice_nodigit {s : String}
    (h : s.data.all (fun c => !c.isDigit && !(c = ',')) = true) :
    neweggExtractPrice s = .ok none := by
  unfold neweggExtractPrice
  split
  · rfl
  · rw [show priceCandidates s.data = [] from reFindAll_reNum_nil (nodigit_chars h)]

theorem sylvaneExtractPrice_nodigit {s : String}
    (h : s.data.all (fun c => !c.isDigit && !(c = ',')) = true) :
    sylvaneExtractPrice s = .ok none := by
  unfold sylvaneExtractPrice
  split
  · rfl
  · have hclean : ∀ c ∈ sylvanePriceClean s, isDigitOrComma c = false := by
      intro c hc
      unfold sylvanePriceClean at hc
      have h1 := pyStrip_subset _ hc
      have h2 := pyDelete_subset _ _ h1
      have h3 := pyDelete_subset _ _ h2
      rw [List.mem_map] at h3
      obtain ⟨c₀, hc₀, rfl⟩ := h3
      by_cases hnl : (c₀ = '\n' || c₀ = '\r') = true
      · rw [if_pos hnl]
        decide
      · rw [if_neg hnl]
        exact nodigit_chars h c₀ hc₀
    rw [show priceCandidates (sylvanePriceClean s) = []
      from reFindAll_reNum_nil hclean]
    rfl

/-! The ten claims. -/

/-- C1: for the single-element input list holding the AMD Ryzen 5 5600X
title and the price text 159.99 dollars, the Newegg pipeline
(normalize_record applied by process_all) produces, for every clock
reading, exactly one accepted record with category CPU, brand AMD, specs
entries series Ryzen 5, model 5600X, cores 6, speed 3.7 GHz, socket AM4
and power 65W, price 159.99, and a discarded count of 0. -/
theorem c1_newegg_end_to_end (now : String) :
    (neweggProcessAll
      [{ title := "AMD Ryzen 5 5600X 6-Core 3.7 GHz Socket AM4 65W Desktop Processor",
         price := "$159.99" }] now).map
      (fun res => (res.1.map (fun n => (n.category, n.brand, n.price,
          n.specs.lookup "series", n.specs.lookup "model", n.specs.lookup "cores",
          n.specs.lookup "speed", n.specs.lookup "socket", n.specs.lookup "power")),
        res.2))
    = .ok ([("CPU", some "AMD", mkRat 15999 100,
        some (PyVal.vstr "Ryzen 5"), some (PyVal.vstr "5600X"), some (PyVal.vint 6),
        some (PyVal.vstr "3.7 GHz"), some (PyVal.vstr "AM4"), some (PyVal.vstr "65W"))], 0) :=
  rfl

/-- C2 (code bug): the Sylvane CADR extractors are declared static methods
but their bodies read the unbound name self, so for a non-empty input
other than N/A they raise NameError instead of returning a value, and the
error propagates through normalize_record; only the falsy and N/A guards
return None as the contract demands. -/
theorem c2_cadr_staticmethod_raises :
    extractCadrSmoke (some "300") = .error "NameError: name 'self' is not defined"
    ∧ extractCadrPollen (some "300") = .error "NameError: name 'self' is not defined"
    ∧ extractCadrDust (some "300") = .error "NameError: name 'self' is not defined"
    ∧ extractCadrSmoke none = .ok none
    ∧ extractCadrSmoke (some "") = .ok none
    ∧ extractCadrSmoke (some "N/A") = .ok none
    ∧ sylvaneNormalizeRecord
        { productName := "P", price := "$229.99", cadrSmoke := some "233" } "T"
      = .error "NameError: name 'self' is not defined" := by
  decide

/-- C3 (counterexample): on the price text made of a single comma both
extract_price functions raise ValueError (float applied to the
comma-stripped empty candidate) instead of returning null, and on the
text 0 comma space 5 the Sylvane extract_price skips the non-positive
first candidate and returns 5 where the claim demands null. -/
theorem c3_price_counterexample :
    neweggExtractPrice "," = .error "ValueError"
    ∧ sylvaneExtractPrice "," = .error "ValueError"
    ∧ sylvaneExtractPrice "0, 5" = .ok (some (mkRat 5 1)) := by
  decide

/-- C3 (amended): for every price text all of whose regex candidates hold
a digit, the Newegg extract_price takes the first candidate (thousands
separators stripped) and returns it when strictly positive, else null;
the Sylvane extract_price returns the first strictly positive candidate
of its cleaned text, else null; with no candidates both return null; and
both return 1234.50 on the dollar-sign 1,234.50 text. -/
theorem c3_price_first_candidate (s : String)
    (hn : (priceCandidates s.data).all candHasDigit = true)
    (hs : (priceCandidates (sylvanePriceClean s)).all candHasDigit = true) :
    (neweggExtractPrice s =
      .ok (if s = "" || s = "0" then none else firstCandidateVal (priceCandidates s.data)))
    ∧ (sylvaneExtractPrice s =
      .ok (if s = "" || s = "0" || s = "N/A" then none
        else firstPositiveVal (priceCandidates (sylvanePriceClean s))))
    ∧ neweggExtractPrice "$1,234.50" = .ok (some (mkRat 123450 100))
    ∧ sylvaneExtractPrice "$1,234.50" = .ok (some (mkRat 123450 100)) := by
  refine ⟨?_, ?_, by decide, by decide⟩
  · unfold neweggExtractPrice
    split
    · rfl
    · cases hc : priceCandidates s.data with
      | nil => rfl
      | cons n rest =>
        rw [hc, List.all_cons, Bool.and_eq_true] at hn
        simp only [pyFloat_ok (anyDigit_filter hn.1), firstCandidateVal]
  · unfold sylvaneExtractPrice
    split
    · rfl
    · exact sylvaneFirstPositive_eq _ hs

/-- C3 (witness): the amended statement applied to the concrete price
text dollar-sign 1,234.50, whose candidates all hold digits. -/
theorem c3_price_first_candidate_witness :
    ((priceCandidates "$1,234.50".data).all candHasDigit = true)
    ∧ (neweggExtractPrice "$1,234.50" =
        .ok (if "$1,234.50" = "" || "$1,234.50" = "0" then none
          else firstCandidateVal (priceCandidates "$1,234.50".data))) :=
  ⟨by decide, (c3_price_first_candidate "$1,234.50" (by decide) (by decide)).1⟩

/-- C4 (counterexample): the title 17.68TB contains the substring 7.68TB,
yet the extracted capacity is 18104 gigabytes (17.68 times 1024,
truncated), not 7864, so the claim quantified over every title containing
7.68TB fails. -/
theorem c4_ssd_counterexample :
    strContains "17.68TB" "7.68TB" = true
    ∧ ssdCapacity "17.68TB" = some 18104
    ∧ (parseSsdSpecs "17.68TB").lookup "capacity_gb" = some (PyVal.vint 18104)
    ∧ (18104 : Int) ≠ 7864 := by
  decide

/-- C4 (amended): the terabyte pattern is tried before the gigabyte
pattern and its value is converted by multiplying by 1024 and truncating;
the gigabyte pattern is only consulted when no terabyte match exists; and
every title whose first terabyte match captures 7.68 yields capacity 7864
gigabytes, never 68 — in particular the title 7.68TB itself. -/
theorem c4_ssd_capacity (title : String) :
    (∀ g, searchG1 reSsdTB title = some g →
      ssdCapacity title =
        some (Rat.floor (mkRat ((pyFloatVal g.data).num * 1024) (pyFloatVal g.data).den)))
    ∧ (searchG1 reSsdTB title = some "7.68" →
      ssdCapacity title = some 7864 ∧ ssdCapacity title ≠ some 68)
    ∧ (searchG1 reSsdTB title = none →
      ssdCapacity title = (searchG1 reSsdGB title).map (fun g => (natOfDigits g.data : Int)))
    ∧ (parseSsdSpecs title).lookup "capacity_gb" = some (optInt (ssdCapacity title))
    ∧ ssdCapacity "7.68TB" = some 7864 := by
  refine ⟨?_, ?_, ?_, rfl, by decide⟩
  · intro g hg
    unfold ssdCapacity
    rw [hg]
  · intro hg
    have hcap : ssdCapacity title =
        some (Rat.floor (mkRat ((pyFloatVal "7.68".data).num * 1024)
          (pyFloatVal "7.68".data).den)) := by
      unfold ssdCapacity
      rw [hg]
    rw [hcap]
    exact ⟨by decide, by decide⟩
  · intro hg
    unfold ssdCapacity
    rw [hg]
    cases hgb : searchG1 reSsdGB title <;> simp

/-- C4 (witness): the amended statement applied to the title 7.68TB,
whose first terabyte match captures 7.68. -/
theorem c4_ssd_capacity_witness :
    (searchG1 reSsdTB "7.68TB" = some "7.68")
    ∧ (ssdCapacity "7.68TB" = some 7864 ∧ ssdCapacity "7.68TB" ≠ some 68) :=
  ⟨by decide, (c4_ssd_capacity "7.68TB").2.1 (by decide)⟩

/-- C5: numeric range guards reject out-of-range matches to null: for
every CPU title, a matched wattage outside [35, 350] leaves the power
field None while an in-range wattage is stored with a W suffix; the title
Test CPU 500W yields a null power and Test CPU 65W yields 65W (both
classify as CPU); and extract_coverage_area never returns a number
outside [50, 3000]. -/
theorem c5_range_guards :
    (∀ title g, searchG1 reCpuPower title = some g →
      ¬(35 ≤ natOfDigits g.data ∧ natOfDigits g.data ≤ 350) → cpuPower title = none)
    ∧ (∀ title g, searchG1 reCpuPower title = some g →
      35 ≤ natOfDigits g.data → natOfDigits g.data ≤ 350 →
      cpuPower title = some (toString (natOfDigits g.data) ++ "W"))
    ∧ (∀ v n, extractCoverageArea v = some n → 50 ≤ n ∧ n ≤ 3000)
    ∧ cpuPower "Test CPU 500W" = none
    ∧ cpuPower "Test CPU 65W" = some "65W"
    ∧ detectCategory "Test CPU 500W" = "CPU"
    ∧ detectCategory "Test CPU 65W" = "CPU"
    ∧ (parseCpuSpecs "Test CPU 500W").lookup "power" = some PyVal.vnone
    ∧ (parseCpuSpecs "Test CPU 65W").lookup "power" = some (PyVal.vstr "65W") := by
  refine ⟨?_, ?_, ?_, by decide, by decide, by decide, by decide, by decide, by decide⟩
  · intro title g hg hn
    have hcond : ¬((decide (35 ≤ natOfDigits g.data)
        && decide (natOfDigits g.data ≤ 350)) = true) := by
      simp only [Bool.and_eq_true, decide_eq_true_eq]
      exact hn
    unfold cpuPower
    rw [hg]
    show (if (decide (35 ≤ natOfDigits g.data) && decide (natOfDigits g.data ≤ 350)) = true
        then some (toString (natOfDigits g.data) ++ "W") else none) = none
    rw [if_neg hcond]
  · intro title g hg h35 h350
    have hcond : (decide (35 ≤ natOfDigits g.data)
        && decide (natOfDigits g.data ≤ 350)) = true := by
      simp only [Bool.and_eq_true, decide_eq_true_eq]
      exact ⟨h35, h350⟩
    unfold cpuPower
    rw [hg]
    show (if (decide (35 ≤ natOfDigits g.data) && decide (natOfDigits g.data ≤ 350)) = true
        then some (toString (natOfDigits g.data) ++ "W") else none)
      = some (toString (natOfDigits g.data) ++ "W")
    rw [if_pos hcond]
  · intro v n h
    cases v with
    | none => exact absurd h (by simp [extractCoverageArea])
    | some s =>
      simp only [extractCoverageArea] at h
      split at h
      · cases h
      · split at h
        · rename_i m hm
          split at h
          · cases h
            exact coverageValidNumbers_range (nat_max?_eq_some_iff.mp hm).1
          · cases h
        · cases h

/-- C5 (witness): the guard statements applied to the concrete title Test
CPU 500W, whose wattage match 500 is out of range, and to a concrete
coverage text. -/
theorem c5_range_guards_witness :
    cpuPower "Test CPU 500W" = none ∧ (50 ≤ 800 ∧ 800 ≤ 3000) :=
  ⟨c5_range_guards.1 "Test CPU 500W" "500" (by decide) (by decide),
   c5_range_guards.2.2.1 (some "800 sq. ft.") 800 (by decide)⟩

/-- C6: classification is deterministic first-match over the declared
ordered keyword list: detect_category agrees with the specification-side
first-match scan with fallback Other on every title, a title hitting no
keyword at all classifies as Other, and any title hitting both a Laptop
keyword and a Gaming PC keyword classifies as Laptop because Laptop
precedes Gaming PC in the declared order. -/
theorem c6_detect_category :
    (∀ title, detectCategory title = detectCategorySpec title)
    ∧ (∀ title, (categoryKeywords.all (fun p => !hitsKeyword p.2 title)) = true →
      detectCategory title = "Other")
    ∧ (∀ title,
      hitsKeyword ["Laptop", "Notebook", "2-in-1", "Chromebook", "Gaming Laptop",
        "TouchScreen Laptop"] title = true →
      hitsKeyword ["Gaming PC", "Desktop PC", "Pre-Built", "Gaming Desktop"] title = true →
      detectCategory title = "Laptop") := by
  have haux : ∀ (title : String) (l : List (String × List String)),
      detectCategoryAux l (lowerL title.data) =
        (l.find? (fun p => hitsKeyword p.2 title)).map (fun p => p.1) := by
    intro title l
    induction l with
    | nil => rfl
    | cons p rest ih =>
      obtain ⟨cat, kws⟩ := p
      by_cases hk : hitsKeyword kws title = true
      · rw [detectCategoryAux, if_pos (by exact hk), List.find?_cons_of_pos _ (by exact hk)]
        rfl
      · rw [detectCategoryAux, if_neg (by exact hk),
          List.find?_cons_of_neg _ (by exact hk), ih]
  refine ⟨?_, ?_, ?_⟩
  · intro title
    rw [detectCategory, detectCategorySpec, haux title]
  · intro title h
    rw [detectCategory, haux title]
    rw [List.find?_eq_none.mpr ?_]
    · rfl
    · intro p hp
      have hfalse := List.all_eq_true.mp h p hp
      rw [Bool.not_eq_true'] at hfalse
      simp [hfalse]
  · intro title h1 _h2
    rw [detectCategory]
    rw [show categoryKeywords =
      ("Laptop", ["Laptop", "Notebook", "2-in-1", "Chromebook", "Gaming Laptop",
        "TouchScreen Laptop"]) ::
      categoryKeywords.tail from rfl]
    rw [detectCategoryAux, if_pos (by exact h1)]
    rfl

/-- C6 (witness): the precedence statement applied to a concrete title
holding both a Laptop keyword and a Gaming PC keyword. -/
theorem c6_detect_category_witness :
    detectCategory "Gaming PC with Gaming Laptop dock" = "Laptop" :=
  c6_detect_category.2.2 "Gaming PC with Gaming Laptop dock" (by decide) (by decide)

/-- C7 (counterexample): the price string made of one comma contains no
numeric character, yet extract_price raises ValueError (instead of
returning null) and normalize_record propagates the error (instead of
returning null), for both processors. -/
theorem c7_price_counterexample :
    (",".data.all (fun c => !c.isDigit) = true)
    ∧ neweggExtractPrice "," = .error "ValueError"
    ∧ neweggNormalizeRecord { title := "X", price := "," } "T" = .error "ValueError"
    ∧ sylvaneNormalizeRecord { productName := "X", price := "," } "T"
      = .error "ValueError" := by
  decide

/-- C7 (amended): every normalized record either processor returns has a
strictly positive price; and for every raw record whose price string
contains neither a digit nor a comma, extract_price returns null and
normalize_record returns null (a digit-free price string holding a comma
instead raises ValueError, per the counterexample). -/
theorem c7_price_invariant :
    (∀ (r : NeweggRaw) (now : String) (n : NeweggNorm),
      neweggNormalizeRecord r now = .ok (some n) → 0 < n.price)
    ∧ (∀ (r : SylvaneRaw) (now : String) (n : SylvaneNorm),
      sylvaneNormalizeRecord r now = .ok (some n) → 0 < n.price)
    ∧ (∀ s : String, s.data.all (fun c => !c.isDigit && !(c = ',')) = true →
      neweggExtractPrice s = .ok none)
    ∧ (∀ s : String, s.data.all (fun c => !c.isDigit && !(c = ',')) = true →
      sylvaneExtractPrice s = .ok none)
    ∧ (∀ (r : NeweggRaw) (now : String),
      r.price.data.all (fun c => !c.isDigit && !(c = ',')) = true →
      neweggNormalizeRecord r now = .ok none)
    ∧ (∀ (r : SylvaneRaw) (now : String),
      r.price.data.all (fun c => !c.isDigit && !(c = ',')) = true →
      sylvaneNormalizeRecord r now = .ok none) := by
  refine ⟨?_, ?_, fun s h => neweggExtractPrice_nodigit h,
    fun s h => sylvaneExtractPrice_nodigit h, ?_, ?_⟩
  · intro r now n h
    unfold neweggNormalizeRecord at h
    split at h
    · cases h
    · cases h
    · rename_i p hp
      cases h
      exact neweggExtractPrice_pos hp
  · intro r now n h
    unfold sylvaneNormalizeRecord at h
    split at h
    · cases h
    · cases h
    · rename_i p hp
      split at h
      · cases h
      · split at h
        · cases h
        · split at h
          · cases h
          · cases h
            exact sylvaneExtractPrice_pos hp
  · intro r now h
    unfold neweggNormalizeRecord
    rw [neweggExtractPrice_nodigit h]
  · intro r now h
    unfold sylvaneNormalizeRecord
    rw [sylvaneExtractPrice_nodigit h]

/-- C7 (witness): the invariant applied to a concrete accepted record with
price 5 and, for the digit-free case, to the price string abc. -/
theorem c7_price_invariant_witness :
    0 < (mkRat 5 1 : ℚ)
    ∧ neweggExtractPrice "abc" = .ok none
    ∧ sylvaneExtractPrice "abc" = .ok none
    ∧ neweggNormalizeRecord { title := "", price := "abc" } "T" = .ok none :=
  ⟨c7_price_invariant.1 { title := "", price := "5" } "T"
      { originalData := { title := "", price := "5" }, title := "", category := "Other",
        price := mkRat 5 1, imageUrl := "", productLink := "", itemFeatures := [],
        processedAt := "T", brand := none, specs := [],
        amazonLink := "https://www.amazon.com/s?k=&tag=YOUR_TAG-20" } (by decide),
   c7_price_invariant.2.2.1 "abc" (by decide),
   c7_price_invariant.2.2.2.1 "abc" (by decide),
   c7_price_invariant.2.2.2.2.1 { title := "", price := "abc" } "T" (by decide)⟩

/-- C8: whenever every record of the input normalizes without exception,
process_all returns exactly the in-order subsequence of records whose
normalization succeeds (so accepted records keep the input order), every
discarded record is counted, and accepted plus discarded equals the input
length. -/
theorem c8_process_all (rs : List NeweggRaw) (now : String)
    (h : ∀ r ∈ rs, ∃ v, neweggNormalizeRecord r now = .ok v) :
    neweggProcessAll rs now =
      .ok (rs.filterMap (fun r => okSome (neweggNormalizeRecord r now)),
        rs.countP (fun r => isOkNone (neweggNormalizeRecord r now)))
    ∧ (rs.filterMap (fun r => okSome (neweggNormalizeRecord r now))).length
      + rs.countP (fun r => isOkNone (neweggNormalizeRecord r now)) = rs.length := by
  constructor
  · unfold neweggProcessAll
    rw [processAllGo_spec now rs [] 0 h]
    simp
  · exact accepted_plus_discarded now rs h

/-- C8 (witness): the batch statement applied to a concrete two-record
input whose first record is accepted and whose second is discarded. -/
theorem c8_process_all_witness :
    neweggProcessAll [{ title := "", price := "5" }, { title := "", price := "" }] "T" =
      .ok (([{ title := "", price := "5" }, { title := "", price := "" }] :
          List NeweggRaw).filterMap
          (fun r => okSome (neweggNormalizeRecord r "T")),
        ([{ title := "", price := "5" }, { title := "", price := "" }] :
          List NeweggRaw).countP
          (fun r => isOkNone (neweggNormalizeRecord r "T")))
    ∧ (([{ title := "", price := "5" }, { title := "", price := "" }] :
          List NeweggRaw).filterMap
          (fun r => okSome (neweggNormalizeRecord r "T"))).length
      + ([{ title := "", price := "5" }, { title := "", price := "" }] :
          List NeweggRaw).countP
          (fun r => isOkNone (neweggNormalizeRecord r "T")) = 2 :=
  c8_process_all [{ title := "", price := "5" }, { title := "", price := "" }] "T"
    (by
      intro r hr
      rcases List.mem_cons.mp hr with h | h
      · subst h
        exact ⟨_, rfl⟩
      · rcases List.mem_cons.mp h with h' | h'
        · subst h'
          exact ⟨_, rfl⟩
        · exact absurd h' (List.not_mem_nil r))

/-- C9: normalize_record is deterministic up to the timestamp: for every
raw record and any two clock readings, the outcomes agree once the
processed_at field is blanked — in particular both runs discard together,
and two accepted records agree in every field except processed_at. -/
theorem c9_normalize_deterministic (r : NeweggRaw) (t₁ t₂ : String) :
    eraseTime (neweggNormalizeRecord r t₁) = eraseTime (neweggNormalizeRecord r t₂)
    ∧ (neweggNormalizeRecord r t₁ = .ok none ↔ neweggNormalizeRecord r t₂ = .ok none) := by
  unfold neweggNormalizeRecord eraseTime
  cases neweggExtractPrice r.price with
  | error e => exact ⟨rfl, Iff.rfl⟩
  | ok po =>
    cases po with
    | none => exact ⟨rfl, Iff.rfl⟩
    | some p =>
      constructor
      · rfl
      · constructor <;> (intro h; cases h)

/-- C10 (counterexample): on the coverage text 12sq. ft.34 the unit-phrase
deletion merges the digit runs 12 and 34 into 1234, so
extract_coverage_area returns 1234 even though no integer found in the
text lies in [50, 3000]; the claim that the maximum is taken over the
integers of the text itself therefore fails. -/
theorem c10_coverage_counterexample :
    extractCoverageArea (some "12sq. ft.34") = some 1234
    ∧ claimIntsInText "12sq. ft.34" = [12, 34]
    ∧ (claimIntsInText "12sq. ft.34").filter (fun n => 50 ≤ n && n ≤ 3000) = [] := by
  decide

/-- C10 (amended): extract_coverage_area returns n exactly when the value
is neither empty nor N/A and n is the maximum of the integers found in
the preprocessed text (lower-cased, unit phrases deleted, which may merge
adjacent digit runs) that lie in [50, 3000]; in particular it returns
null when no such integer exists. -/
theorem c10_coverage_max (v : String) (n : Nat) :
    extractCoverageArea (some v) = some n ↔
      ¬(v = "" ∨ v = "N/A") ∧ n ∈ coverageValidNumbers v
        ∧ ∀ m ∈ coverageValidNumbers v, m ≤ n := by
  constructor
  · intro h
    simp only [extractCoverageArea] at h
    split at h
    · cases h
    · rename_i hguard
      split at h
      · rename_i m hm
        split at h
        · cases h
          refine ⟨?_, (nat_max?_eq_some_iff.mp hm).1, (nat_max?_eq_some_iff.mp hm).2⟩
          simpa only [Bool.or_eq_true, decide_eq_true_eq] using hguard
        · cases h
      · cases h
  · rintro ⟨hg, hmem, hub⟩
    have hguard : ¬((decide (v = "") || decide (v = "N/A")) = true) := by
      simpa only [Bool.or_eq_true, decide_eq_true_eq] using hg
    have hmax : (coverageValidNumbers v).max? = some n :=
      nat_max?_eq_some_iff.mpr ⟨hmem, hub⟩
    have hpos : 0 < n := by
      have := (coverageValidNumbers_range hmem).1
      omega
    simp only [extractCoverageArea]
    rw [if_neg hguard, hmax]
    simp [hpos]

/-- C10 (witness): the amended characterization applied to a concrete
coverage text with one in-range number. -/
theorem c10_coverage_max_witness :
    extractCoverageArea (some "800 sq. ft. approx") = some 800 :=
  (c10_coverage_max "800 sq. ft. approx" 800).mpr ⟨by decide, by decide, by decide⟩

end ReptileCommerce
